import Mathlib

/-!
Verification of the utterance-segmentation and audio-conditioning pipeline of
the voice-todo thermal-printer audio server, embedded from
src/audio_server/whisper_server.py (class WhisperAudioServer).

Conventions of the embedding:
* the UDP byte stream is a list of byte values (`List ℕ`, each < 256);
* PCM samples are integers (`List ℤ`); float64 processing is modelled on `ℝ`;
* timestamps are rationals (`ℚ`), with 0 the "no recording" sentinel;
* external collaborators that are not part of this repository (scipy's
  Butterworth `filtfilt` core, the Whisper transcription model) are passed in
  as function parameters, with the error behaviour observable at the call
  site (input-length validation, service failure) embedded explicitly.
-/

namespace VoiceTodo

/-- One little-endian signed 16-bit sample from two bytes, as decoded by
`np.frombuffer(audio_data, dtype=np.int16)`. -/
def int16OfBytes (lo hi : ℕ) : ℤ :=
  let u := lo + 256 * hi
  if u < 32768 then (u : ℤ) else (u : ℤ) - 65536

/-- `np.frombuffer(audio_data, dtype=np.int16)` (whisper_server.py line 160):
decodes consecutive byte pairs; raises `ValueError` when the byte count is not
a multiple of the element size. -/
def decodeInt16 : List ℕ → Except String (List ℤ)
  | [] => .ok []
  | [_] => .error "buffer size must be a multiple of element size"
  | lo :: hi :: rest => do
      let tail ← decodeInt16 rest
      pure (int16OfBytes lo hi :: tail)

/-- The mutable session state of `WhisperAudioServer`: the byte buffer
`audio_buffer`, the `is_recording` flag and the `last_audio_time` timestamp
(0 is the "no recording" sentinel). -/
structure ServerState where
  audio_buffer : List ℕ
  is_recording : Bool
  last_audio_time : ℚ
deriving DecidableEq, Repr

/-- Python slice `buf[-k:]` on a byte array, for `k ≥ 0`: the last `k`
elements; for `k = 0` Python's `-0 == 0` makes it the whole buffer, and for
`k ≥ len(buf)` it is also the whole buffer. -/
def pySliceLast (k : ℕ) (l : List ℕ) : List ℕ :=
  if k = 0 then l else l.drop (l.length - k)

/-- `max_buffer_size = 30 * self.sample_rate * 2` (whisper_server.py line
124): the 30-second hard cap, in bytes. -/
def max_buffer_size (sample_rate : ℕ) : ℕ := 30 * sample_rate * 2

/-- `keep_size = 20 * self.sample_rate * 2` (whisper_server.py line 128): the
20 seconds of most recent audio retained after an overflow truncation. -/
def keep_size (sample_rate : ℕ) : ℕ := 20 * sample_rate * 2

/-- `WhisperAudioServer.handle_audio_data` (whisper_server.py lines 104-135):
if not recording, start recording and clear the buffer; append the payload
and stamp the arrival time; if the buffer has grown past `max_buffer_size`,
keep only its last `keep_size` bytes. -/
def handle_audio_data (sample_rate : ℕ) (st : ServerState) (data : List ℕ)
    (current_time : ℚ) : ServerState :=
  let st0 := if st.is_recording then st
             else { st with is_recording := true, audio_buffer := [] }
  let buf := st0.audio_buffer ++ data
  let st1 := { st0 with audio_buffer := buf, last_audio_time := current_time }
  if buf.length > max_buffer_size sample_rate then
    { st1 with audio_buffer := pySliceLast (keep_size sample_rate) buf }
  else st1

lemma pySliceLast_length (k : ℕ) (l : List ℕ) (hk : k ≠ 0) :
    (pySliceLast k l).length = min k l.length := by
  simp only [pySliceLast, if_neg hk, List.length_drop]
  omega

lemma keep_le_max (sample_rate : ℕ) :
    keep_size sample_rate ≤ max_buffer_size sample_rate := by
  unfold keep_size max_buffer_size
  omega

lemma handle_audio_data_buffer (sample_rate : ℕ) (st : ServerState)
    (data : List ℕ) (t : ℚ) :
    (handle_audio_data sample_rate st data t).audio_buffer =
      (if ((if st.is_recording then st.audio_buffer else []) ++ data).length >
          max_buffer_size sample_rate then
        pySliceLast (keep_size sample_rate)
          ((if st.is_recording then st.audio_buffer else []) ++ data)
      else (if st.is_recording then st.audio_buffer else []) ++ data) := by
  unfold handle_audio_data
  by_cases hr : st.is_recording <;> simp [hr] <;> split <;> simp_all

/-- C1 (amended form): while RECORDING, an ingestion step that overflows the
cap appends the payload first and then truncates the combined buffer, so the
result is the last `keep_size` bytes of (old buffer ++ payload). -/
theorem handle_overflow_append_then_truncate (sample_rate : ℕ)
    (st : ServerState) (data : List ℕ) (t : ℚ)
    (hrec : st.is_recording = true)
    (hover : st.audio_buffer.length + data.length > max_buffer_size sample_rate) :
    (handle_audio_data sample_rate st data t).audio_buffer =
      pySliceLast (keep_size sample_rate) (st.audio_buffer ++ data) := by
  rw [handle_audio_data_buffer]
  simp only [hrec, if_true]
  rw [if_pos]
  simpa using hover

/-- Witness for C1's amended theorem at a concrete overflowing input. -/
theorem handle_overflow_append_then_truncate_witness :
    (handle_audio_data 1 ⟨List.range 60, true, 0⟩ [100] 7).audio_buffer =
      pySliceLast (keep_size 1) (List.range 60 ++ [100]) :=
  handle_overflow_append_then_truncate 1 ⟨List.range 60, true, 0⟩ [100] 7
    (by decide) (by decide)

/-- C1 counterexample: at a concrete recording state with a 60-byte buffer at
the cap (sample_rate 1) and a 1-byte payload, the overflow condition of the
claim holds, yet the resulting buffer is NOT (last `keep_size` bytes of the
old buffer) ++ payload: the code appends first and truncates the combined
buffer instead. -/
theorem c1_truncate_then_append_counterexample :
    (List.range 60).length + [100].length > max_buffer_size 1 ∧
    (handle_audio_data 1 ⟨List.range 60, true, 0⟩ [100] 7).audio_buffer ≠
      pySliceLast (keep_size 1) (List.range 60) ++ [100] := by
  constructor
  · decide
  · decide

/-- C2: after any ingestion step (with a positive configured sample rate),
the buffer length never exceeds `max_buffer_size`, whatever the pre-state
buffer and the payload. -/
theorem handle_buffer_bounded (sample_rate : ℕ) (st : ServerState)
    (data : List ℕ) (t : ℚ) (hsr : 0 < sample_rate) :
    (handle_audio_data sample_rate st data t).audio_buffer.length ≤
      max_buffer_size sample_rate := by
  have hk : keep_size sample_rate ≠ 0 := by
    unfold keep_size; omega
  rw [handle_audio_data_buffer]
  split <;> split
  all_goals
    first
      | (rw [pySliceLast_length _ _ hk]
         exact le_trans (min_le_left _ _) (keep_le_max sample_rate))
      | omega

/-- Witness for C2 at a concrete state and payload. -/
theorem handle_buffer_bounded_witness :
    (handle_audio_data 1 ⟨[], true, 0⟩ [1, 2, 3] 0).audio_buffer.length ≤
      max_buffer_size 1 :=
  handle_buffer_bounded 1 ⟨[], true, 0⟩ [1, 2, 3] 0 (by decide)

/-- Arithmetic mean of a list of reals (`np.mean`); the mean of an empty list
is 0 here (numpy yields NaN there, whose comparisons are all false — the
places below that can receive an empty mean behave identically under either
convention, see `spectral_subtraction` and `apply_agc`). -/
noncomputable def listMean (l : List ℝ) : ℝ := l.sum / l.length

/-- `WhisperAudioServer.spectral_subtraction` (whisper_server.py lines
300-311): estimate a noise amplitude as 1.5 x the mean magnitude of the first
`min(0.5 s, len/4)` samples, then attenuate every sample below that estimate
to 10 percent. -/
noncomputable def spectral_subtraction (sample_rate : ℕ) (audio : List ℝ) :
    List ℝ :=
  let noise_samples := min (sample_rate / 2) (audio.length / 4)
  let noise_estimate :=
    listMean ((audio.take noise_samples).map (fun x => |x|)) * 1.5
  audio.map (fun x => if |x| < noise_estimate then x * 0.1 else x)

/-- `signal.butter(4, [low, high], btype='band')` returns 9 coefficients per
polynomial, and `signal.filtfilt`'s default pad length is
`3 * max(len(a), len(b)) = 27`. -/
def filtfilt_padlen : ℕ := 3 * 9

/-- `WhisperAudioServer.apply_speech_filter` (whisper_server.py lines
313-323): the zero-phase Butterworth band-pass. The numerical forward-backward
filtering is performed by scipy (an external library, not repository code) and
is abstracted as the parameter `filt`; what the call site observes is that
`signal.filtfilt` raises `ValueError` whenever the input is not longer than
its pad length. -/
def apply_speech_filter (filt : List ℝ → List ℝ) (audio : List ℝ) :
    Except String (List ℝ) :=
  if audio.length ≤ filtfilt_padlen then
    .error "The length of the input vector x must be greater than padlen"
  else .ok (filt audio)

/-- `WhisperAudioServer.apply_compression` (whisper_server.py lines 325-338):
soft-knee 4:1 compression of samples above 70 percent of the peak magnitude;
`np.max` raises on an empty array. -/
noncomputable def apply_compression (audio : List ℝ) :
    Except String (List ℝ) :=
  if audio.isEmpty then
    .error "zero-size array to reduction operation maximum"
  else
    let threshold := 0.7 * ((audio.map (fun x => |x|)).foldr max 0)
    let ratio : ℝ := 4.0
    .ok (audio.map (fun x =>
      if |x| > threshold then
        Real.sign x * (threshold + (|x| - threshold) / ratio)
      else x))

/-- `target_rms = 0.15 * 32768` (whisper_server.py line 343). -/
noncomputable def target_rms : ℝ := 0.15 * 32768

/-- `current_rms = np.sqrt(np.mean(audio**2))` (whisper_server.py line 346). -/
noncomputable def current_rms (audio : List ℝ) : ℝ :=
  Real.sqrt (listMean (audio.map (fun x => x ^ 2)))

/-- `WhisperAudioServer.apply_agc` (whisper_server.py lines 340-355): when the
RMS is positive, scale every sample by `min(target_rms / current_rms, 3.0)`;
otherwise return the segment untouched. -/
noncomputable def apply_agc (audio : List ℝ) : List ℝ :=
  let rms := current_rms audio
  if 0 < rms then
    let gain := min (target_rms / rms) 3.0
    audio.map (fun x => x * gain)
  else audio

/-- `scipy.ndimage.uniform_filter1d(l, size, mode='nearest')`: moving average
over a window of `w` samples centred with left reach `w / 2`, indices clamped
to the array bounds (nearest mode). -/
noncomputable def uniform_filter1d_nearest (w : ℕ) (l : List ℝ) : List ℝ :=
  (List.range l.length).map (fun i =>
    ((List.range w).map (fun j =>
      l.getD (min (l.length - 1) (i + j - w / 2)) 0)).sum / w)

/-- `WhisperAudioServer.wiener_filter` (whisper_server.py lines 357-375):
smooth the magnitude envelope over `min(512, len/8)` samples, estimate the
noise power from the first window of the squared envelope, and scale each
sample by `p / (p + noise_power)`; `uniform_filter1d` raises when its window
size is 0. -/
noncomputable def wiener_filter (audio : List ℝ) : Except String (List ℝ) :=
  let window_size := min 512 (audio.length / 8)
  if window_size = 0 then .error "incorrect filter size"
  else
    let smoothed :=
      uniform_filter1d_nearest window_size (audio.map (fun x => |x|))
    let signal_power := smoothed.map (fun x => x ^ 2)
    let noise_power := listMean (signal_power.take window_size)
    .ok (List.zipWith (fun x p => x * (p / (p + noise_power)))
      audio signal_power)

/-- `np.clip(x, -32768, 32767)` (whisper_server.py line 291). -/
noncomputable def clipReal (x : ℝ) : ℝ := max (-32768) (min x 32767)

/-- `.astype(np.int16)` on an already-clipped float64: conversion truncates
toward zero, and the clipped value fits in the int16 range so no wraparound
occurs. -/
noncomputable def truncToInt (x : ℝ) : ℤ := if 0 ≤ x then ⌊x⌋ else ⌈x⌉

/-- `audio_data.astype(np.float64)` (whisper_server.py line 273): the int16
segment viewed as reals. -/
def floatOfInt (l : List ℤ) : List ℝ := l.map (fun i : ℤ => (i : ℝ))

/-- The body of the `try` block of `WhisperAudioServer.enhance_audio_quality`
(whisper_server.py lines 271-294): the five conditioning stages in order,
short-circuiting on the first stage that raises. -/
noncomputable def enhancePipeline (sample_rate : ℕ)
    (filt : List ℝ → List ℝ) (audio_float : List ℝ) :
    Except String (List ℝ) := do
  let audio_denoised := spectral_subtraction sample_rate audio_float
  let audio_filtered ← apply_speech_filter filt audio_denoised
  let audio_compressed ← apply_compression audio_filtered
  let audio_agc := apply_agc audio_compressed
  let audio_enhanced ← wiener_filter audio_agc
  pure audio_enhanced

/-- `WhisperAudioServer.enhance_audio_quality` (whisper_server.py lines
269-298): cast the int16 segment to float, run the five-stage pipeline, clip
to the int16 range and cast back; any exception inside the pipeline is caught
and the original segment is returned unchanged. -/
noncomputable def enhance_audio_quality (sample_rate : ℕ)
    (filt : List ℝ → List ℝ) (audio_data : List ℤ) : List ℤ :=
  match enhancePipeline sample_rate filt (floatOfInt audio_data) with
  | .ok enhanced => enhanced.map (fun x => truncToInt (clipReal x))
  | .error _ => audio_data

lemma spectral_subtraction_length (sample_rate : ℕ) (x : List ℝ) :
    (spectral_subtraction sample_rate x).length = x.length := by
  simp [spectral_subtraction]

lemma enhancePipeline_error_of_short (sample_rate : ℕ)
    (filt : List ℝ → List ℝ) (x : List ℝ) (h : x.length ≤ filtfilt_padlen) :
    enhancePipeline sample_rate filt x =
      .error "The length of the input vector x must be greater than padlen" := by
  have hfil : apply_speech_filter filt (spectral_subtraction sample_rate x) =
      .error "The length of the input vector x must be greater than padlen" := by
    unfold apply_speech_filter
    rw [if_pos]
    rw [spectral_subtraction_length]
    exact h
  simp only [enhancePipeline]
  rw [hfil]
  rfl

/-- C3: the Conditioner fails closed — whenever the five-stage pipeline
raises on an input (for any behaviour of the external filter core), the
original segment is returned unchanged instead of the error propagating. -/
theorem enhance_fail_closed (sample_rate : ℕ) (filt : List ℝ → List ℝ)
    (audio : List ℤ) (msg : String)
    (h : enhancePipeline sample_rate filt (floatOfInt audio) = .error msg) :
    enhance_audio_quality sample_rate filt audio = audio := by
  unfold enhance_audio_quality
  rw [h]

/-- Witness for C3: the length-1 segment named by the spec is too short for
the band-pass filter, and the Conditioner returns it unchanged. -/
theorem enhance_fail_closed_witness :
    enhance_audio_quality 16000 (fun l => l) [5] = [5] :=
  enhance_fail_closed 16000 (fun l => l) [5] _
    (enhancePipeline_error_of_short 16000 (fun l => l) _
      (by simp [filtfilt_padlen, floatOfInt]))

lemma apply_speech_filter_ok (filt : List ℝ → List ℝ) (x y : List ℝ)
    (h : apply_speech_filter filt x = .ok y) : y = filt x := by
  unfold apply_speech_filter at h
  split at h
  · exact absurd h (by simp)
  · simpa using h.symm

lemma apply_compression_length (x y : List ℝ)
    (h : apply_compression x = .ok y) : y.length = x.length := by
  unfold apply_compression at h
  split at h
  · exact absurd h (by simp)
  · simp only [Except.ok.injEq] at h
    rw [← h]
    simp

lemma apply_agc_length (x : List ℝ) : (apply_agc x).length = x.length := by
  simp only [apply_agc]
  split <;> simp

lemma uniform_filter1d_nearest_length (w : ℕ) (l : List ℝ) :
    (uniform_filter1d_nearest w l).length = l.length := by
  simp [uniform_filter1d_nearest]

lemma wiener_filter_length (x y : List ℝ)
    (h : wiener_filter x = .ok y) : y.length = x.length := by
  simp only [wiener_filter] at h
  split at h
  · exact absurd h (by simp)
  · simp only [Except.ok.injEq] at h
    rw [← h]
    simp [uniform_filter1d_nearest_length]

lemma enhancePipeline_length (sample_rate : ℕ) (filt : List ℝ → List ℝ)
    (hf : ∀ l : List ℝ, (filt l).length = l.length) (x y : List ℝ)
    (h : enhancePipeline sample_rate filt x = .ok y) :
    y.length = x.length := by
  simp only [enhancePipeline, Bind.bind] at h
  cases hfil : apply_speech_filter filt (spectral_subtraction sample_rate x) with
  | error e => simp [hfil, Except.bind] at h
  | ok b =>
    simp only [hfil, Except.bind] at h
    cases hcomp : apply_compression b with
    | error e => simp [hcomp] at h
    | ok c =>
      simp only [hcomp] at h
      cases hwie : wiener_filter (apply_agc c) with
      | error e => simp [hwie, Pure.pure, Except.pure] at h
      | ok d =>
        simp only [hwie, Pure.pure, Except.pure, Except.ok.injEq] at h
        have h1 : d.length = c.length := by
          rw [wiener_filter_length _ _ hwie, apply_agc_length]
        have h2 : b.length = (spectral_subtraction sample_rate x).length := by
          rw [apply_speech_filter_ok filt _ _ hfil, hf]
        rw [← h, h1, apply_compression_length _ _ hcomp, h2,
          spectral_subtraction_length]

lemma truncToInt_clip_mem (x : ℝ) :
    -32768 ≤ truncToInt (clipReal x) ∧ truncToInt (clipReal x) ≤ 32767 := by
  have h1 : ((-32768 : ℤ) : ℝ) ≤ clipReal x := by
    unfold clipReal; push_cast; exact le_max_left _ _
  have h2 : clipReal x ≤ ((32767 : ℤ) : ℝ) := by
    unfold clipReal
    push_cast
    apply max_le
    · norm_num
    · exact min_le_right _ _
  unfold truncToInt
  split
  · constructor
    · exact Int.le_floor.mpr h1
    · exact_mod_cast le_trans (Int.floor_le (clipReal x)) h2
  · constructor
    · exact_mod_cast le_trans h1 (Int.le_ceil (clipReal x))
    · exact Int.ceil_le.mpr h2

/-- C7: conditioning preserves shape and range — the output of
`enhance_audio_quality` has the length of the input and every output sample
lies in the signed 16-bit range, given an int16-ranged input and a
length-preserving external filter core. -/
theorem enhance_shape_range (sample_rate : ℕ) (filt : List ℝ → List ℝ)
    (hf : ∀ l : List ℝ, (filt l).length = l.length) (audio : List ℤ)
    (hin : ∀ x ∈ audio, -32768 ≤ x ∧ x ≤ 32767) :
    (enhance_audio_quality sample_rate filt audio).length = audio.length ∧
    ∀ y ∈ enhance_audio_quality sample_rate filt audio,
      -32768 ≤ y ∧ y ≤ 32767 := by
  unfold enhance_audio_quality
  cases h : enhancePipeline sample_rate filt (floatOfInt audio) with
  | error e => exact ⟨rfl, hin⟩
  | ok l =>
    constructor
    · rw [List.length_map, enhancePipeline_length sample_rate filt hf _ _ h,
        floatOfInt, List.length_map]
    · intro y hy
      rw [List.mem_map] at hy
      obtain ⟨x, hx, rfl⟩ := hy
      exact truncToInt_clip_mem x

/-- Witness for C7 at a concrete segment (here one that takes the fail-closed
path, whose output is the input itself). -/
theorem enhance_shape_range_witness :
    (enhance_audio_quality 16000 (fun l => l) [5]).length = [5].length ∧
    ∀ y ∈ enhance_audio_quality 16000 (fun l => l) [5],
      -32768 ≤ y ∧ y ≤ 32767 :=
  enhance_shape_range 16000 (fun l => l) (fun _ => rfl) [5] (by decide)

/-- C8: whenever the RMS of the segment is strictly positive, AGC multiplies
every sample by the single scalar `min(target_rms / current_rms, 3.0)` and
changes nothing else. -/
theorem apply_agc_scalar_gain (audio : List ℝ)
    (h : 0 < current_rms audio) :
    apply_agc audio =
      audio.map (fun x => x * min (target_rms / current_rms audio) 3.0) := by
  simp only [apply_agc]
  rw [if_pos h]

/-- Witness for C8 on a segment of positive RMS. -/
theorem apply_agc_scalar_gain_witness :
    apply_agc [1] = [1].map (fun x => x * min (target_rms / current_rms [1]) 3.0) :=
  apply_agc_scalar_gain [1] (by
    unfold current_rms listMean
    rw [Real.sqrt_pos]
    norm_num)

/-- C10: on an all-zero segment the RMS is 0, so the guard `current_rms > 0`
is false, the gain division is never evaluated, and AGC returns the segment
unchanged. -/
theorem apply_agc_zero_input (audio : List ℝ) (h : ∀ x ∈ audio, x = 0) :
    apply_agc audio = audio ∧ current_rms audio = 0 := by
  have hr : current_rms audio = 0 := by
    unfold current_rms listMean
    have hs : (audio.map (fun x => x ^ 2)).sum = 0 := by
      apply List.sum_eq_zero
      intro y hy
      rw [List.mem_map] at hy
      obtain ⟨x, hx, rfl⟩ := hy
      rw [h x hx]
      ring
    rw [hs, zero_div, Real.sqrt_zero]
  refine ⟨?_, hr⟩
  simp only [apply_agc]
  rw [hr]
  simp

/-- Witness for C10 on a concrete all-zero segment. -/
theorem apply_agc_zero_input_witness :
    apply_agc [0] = [0] ∧ current_rms [0] = 0 :=
  apply_agc_zero_input [0] (by intro x hx; simpa using hx)

/-- Python `str.strip()`: drop leading and trailing whitespace characters
(Lean's `Char.isWhitespace` covers space, tab, carriage return and newline,
which is the whitespace that can occur in transcription output). -/
def pyStrip (s : String) : String :=
  ⟨((s.data.dropWhile Char.isWhitespace).reverse.dropWhile
      Char.isWhitespace).reverse⟩

/-- The acceptance test of whisper_server.py line 194,
`if transcribed_text and len(transcribed_text) > 2`: Python string truthiness
(non-empty) together with the length bound. -/
def acceptsText (t : String) : Bool :=
  decide (t ≠ "") && decide (2 < t.length)

/-- Which collaborators a close-and-process run invoked: whether the Signal
Conditioner ran, whether the transcription service was called, and the text
forwarded to the Delivery Sink (none when nothing was forwarded). -/
structure Effects where
  conditioner_invoked : Bool
  transcriber_invoked : Bool
  dispatched : Option String
deriving DecidableEq, Repr

/-- The run that invoked nothing. -/
def noEffects : Effects := ⟨false, false, none⟩

/-- `WhisperAudioServer.process_audio_buffer` (whisper_server.py lines
147-221), as a state transformer together with the effects it produced.
The opaque Whisper model call is the parameter `transcribe` (taking the
float-normalised conditioned samples, returning the stripped-to-be text or a
service failure), and `filt` is the external filter core threaded to the
Conditioner. An empty buffer returns before the `try` block, leaving the
state untouched; every other path runs the `finally` block, which empties
the buffer, stops recording and resets the timestamp sentinel. -/
noncomputable def process_audio_buffer (sample_rate : ℕ)
    (filt : List ℝ → List ℝ)
    (transcribe : List ℝ → Except Unit String)
    (st : ServerState) : ServerState × Effects :=
  if st.audio_buffer.length = 0 then (st, noEffects)
  else
    let eff :=
      match decodeInt16 st.audio_buffer with
      | .error _ => noEffects
      | .ok audio_array =>
        if audio_array.length < sample_rate then noEffects
        else
          let processed := enhance_audio_quality sample_rate filt audio_array
          let audio_float := (floatOfInt processed).map (fun x => x / 32768)
          match transcribe audio_float with
          | .error _ =>
            { conditioner_invoked := true, transcriber_invoked := true,
              dispatched := none }
          | .ok raw =>
            let transcribed_text := pyStrip raw
            if acceptsText transcribed_text then
              { conditioner_invoked := true, transcriber_invoked := true,
                dispatched := some transcribed_text }
            else
              { conditioner_invoked := true, transcriber_invoked := true,
                dispatched := none }
    ({ audio_buffer := [], is_recording := false, last_audio_time := 0 }, eff)

/-- C4: every close of a non-empty buffer holding at least one second of
samples leaves the session IDLE with an empty buffer and the timestamp reset
to the 0 sentinel, whatever the external transcription service did. -/
theorem process_resets_session (sample_rate : ℕ) (filt : List ℝ → List ℝ)
    (transcribe : List ℝ → Except Unit String) (st : ServerState)
    (audio_array : List ℤ) (hne : st.audio_buffer ≠ [])
    (hdec : decodeInt16 st.audio_buffer = .ok audio_array)
    (hlen : sample_rate ≤ audio_array.length) :
    (process_audio_buffer sample_rate filt transcribe st).1 =
      { audio_buffer := [], is_recording := false, last_audio_time := 0 } := by
  unfold process_audio_buffer
  rw [if_neg]
  simpa using hne

/-- Witness for C4: a 2-byte buffer at sample rate 1 (one sample, one
second) with a succeeding transcription. -/
theorem process_resets_session_witness :
    (process_audio_buffer 1 (fun l => l) (fun _ => .ok "hello")
        ⟨[0, 0], true, 1⟩).1 =
      { audio_buffer := [], is_recording := false, last_audio_time := 0 } :=
  process_resets_session 1 (fun l => l) (fun _ => .ok "hello")
    ⟨[0, 0], true, 1⟩ [0] (by decide) rfl (by decide)

/-- C5: a closed segment with fewer than `sample_rate` samples is discarded
before conditioning — the Conditioner, the transcription service and the
Delivery Sink are all untouched. -/
theorem process_discards_short_segment (sample_rate : ℕ)
    (filt : List ℝ → List ℝ) (transcribe : List ℝ → Except Unit String)
    (st : ServerState) (audio_array : List ℤ)
    (hdec : decodeInt16 st.audio_buffer = .ok audio_array)
    (hlen : audio_array.length < sample_rate) :
    (process_audio_buffer sample_rate filt transcribe st).2 = noEffects := by
  unfold process_audio_buffer
  split
  · rfl
  · rw [hdec]
    simp only [if_pos hlen]

/-- Witness for C5: a 2-byte buffer (one sample) at sample rate 2. -/
theorem process_discards_short_segment_witness :
    (process_audio_buffer 2 (fun l => l) (fun _ => .ok "hello")
        ⟨[0, 0], true, 1⟩).2 = noEffects :=
  process_discards_short_segment 2 (fun l => l) (fun _ => .ok "hello")
    ⟨[0, 0], true, 1⟩ [0] rfl (by decide)

/-- C6: for a long-enough segment whose transcription succeeds with raw text
`raw`, the text forwarded to the Delivery Sink is exactly the stripped text,
and it is forwarded iff that stripped text is non-empty and longer than 2
characters. -/
theorem process_acceptance_policy (sample_rate : ℕ)
    (filt : List ℝ → List ℝ) (raw : String) (st : ServerState)
    (audio_array : List ℤ) (t : String) (hne : st.audio_buffer ≠ [])
    (hdec : decodeInt16 st.audio_buffer = .ok audio_array)
    (hlen : sample_rate ≤ audio_array.length) :
    (process_audio_buffer sample_rate filt (fun _ => .ok raw) st).2.dispatched
        = some t ↔
      t = pyStrip raw ∧ pyStrip raw ≠ "" ∧ 2 < (pyStrip raw).length := by
  unfold process_audio_buffer
  rw [if_neg (by simpa using hne), hdec]
  simp only [if_neg (not_lt.mpr hlen)]
  by_cases hacc : acceptsText (pyStrip raw)
  · simp only [hacc, if_true]
    unfold acceptsText at hacc
    simp only [Bool.and_eq_true, decide_eq_true_eq] at hacc
    constructor
    · intro hsome
      simp only [Option.some.injEq] at hsome
      exact ⟨hsome.symm, hacc.1, hacc.2⟩
    · intro hc
      rw [hc.1]
  · simp only [hacc, if_false]
    unfold acceptsText at hacc
    simp only [Bool.and_eq_true, decide_eq_true_eq, not_and_or] at hacc
    constructor
    · intro hsome
      exact absurd hsome (by simp)
    · intro hc
      rcases hacc with hbad | hbad
      · exact absurd hc.2.1 hbad
      · exact absurd hc.2.2 hbad

/-- Witness for C6: the accepted example from the spec, "buy milk". -/
theorem process_acceptance_policy_witness :
    (process_audio_buffer 1 (fun l => l) (fun _ => .ok "buy milk")
        ⟨[0, 0], true, 1⟩).2.dispatched = some "buy milk" :=
  (process_acceptance_policy 1 (fun l => l) "buy milk" ⟨[0, 0], true, 1⟩
      [0] "buy milk" (by decide) rfl (by decide)).mpr
    (by refine ⟨by decide, by decide, by decide⟩)

/-- C9: a close-and-process invocation on an empty buffer returns at once
with the whole session state unchanged and no collaborator invoked — in
particular the recording flag and the timestamp are NOT reset. -/
theorem process_empty_buffer_noop (sample_rate : ℕ)
    (filt : List ℝ → List ℝ) (transcribe : List ℝ → Except Unit String)
    (st : ServerState) (h : st.audio_buffer = []) :
    process_audio_buffer sample_rate filt transcribe st = (st, noEffects) := by
  unfold process_audio_buffer
  rw [if_pos (by simp [h])]

/-- Witness for C9: an empty buffer while still marked recording with a
non-sentinel timestamp stays exactly as it was. -/
theorem process_empty_buffer_noop_witness :
    process_audio_buffer 16000 (fun l => l) (fun _ => .ok "hello")
        ⟨[], true, 5⟩ = (⟨[], true, 5⟩, noEffects) :=
  process_empty_buffer_noop 16000 (fun l => l) (fun _ => .ok "hello")
    ⟨[], true, 5⟩ (by decide)

end VoiceTodo
